import Mathlib

/-!
Verification of the call-counting statistics subsystem of the Meting-UI-API
repository (`src/app.js`).  The JavaScript source is shallowly embedded:
every definition below mirrors the corresponding source function; machine
dates are modelled with the proleptic Gregorian civil-calendar arithmetic
that ECMAScript `Date` uses internally (days and milliseconds since the
Unix epoch), and JavaScript objects used as string-keyed counter maps are
modelled as association lists with JavaScript's update semantics (update in
place keeps the key's position, a fresh key is appended).

Assumption, stated once: the server process runs with its local time zone
set to UTC, so the JavaScript local-time accessors (`getFullYear`,
`getMonth`, `getDate`) used in `app.js` coincide with the UTC accessors.
The source's "Beijing" helpers add a fixed 8-hour offset to UTC and then
read UTC fields, exactly as modelled here.
-/

/-- A civil (proleptic Gregorian) calendar date, as ECMAScript `Date`
exposes it: `year`, 1-based `month`, 1-based `day`. -/
structure CivilDate where
  year : Int
  month : Int
  day : Int
deriving Repr, DecidableEq

/-- Days since 1970-01-01 of a civil date (Howard Hinnant's
`days_from_civil`, the algorithm underlying ECMAScript date arithmetic). -/
def daysFromCivil (y m d : Int) : Int :=
  let y' := if m ≤ 2 then y - 1 else y
  let era := y'.fdiv 400
  let yoe := y' - era * 400
  let mp := (m + 9) % 12
  let doy := (153 * mp + 2) / 5 + d - 1
  let doe := yoe * 365 + yoe / 4 - yoe / 100 + doy
  era * 146097 + doe - 719468

/-- Civil date of a count of days since 1970-01-01 (Howard Hinnant's
`civil_from_days`). -/
def civilFromDays (z : Int) : CivilDate :=
  let z' := z + 719468
  let era := z'.fdiv 146097
  let doe := z' - era * 146097
  let yoe := (doe - doe / 1460 + doe / 36524 - doe / 146096) / 365
  let y := yoe + era * 400
  let doy := doe - (365 * yoe + yoe / 4 - yoe / 100)
  let mp := (5 * doy + 2) / 153
  let d := doy - (153 * mp + 2) / 5 + 1
  let m := mp + (if mp < 10 then 3 else -9)
  ⟨y + (if m ≤ 2 then 1 else 0), m, d⟩

def CivilDate.toEpochDays (d : CivilDate) : Int :=
  daysFromCivil d.year d.month d.day

/-- `d.setDate(d.getDate() - n)`: ECMAScript normalises an out-of-range
day-of-month through the calendar, which is exactly subtraction of `n`
days. -/
def dateSubDays (d : CivilDate) (n : Int) : CivilDate :=
  civilFromDays (d.toEpochDays - n)

/-- `String.prototype.padStart(w, "0")`. -/
def padZero (w : Nat) (s : String) : String :=
  if s.length < w then String.mk (List.replicate (w - s.length) '0') ++ s else s

def pad2 (n : Int) : String := padZero 2 (toString n)

def pad4 (n : Int) : String := padZero 4 (toString n)

/-- The `YYYY-MM-DD` day key produced by `toISOString().split('T')[0]`. -/
def dayKeyOfDate (d : CivilDate) : String :=
  pad4 d.year ++ "-" ++ pad2 d.month ++ "-" ++ pad2 d.day

/-- `getBeijingDate()` shifts the clock by a fixed 8 hours
(`now.getTime() + 8 * 60 * 60 * 1000`). -/
def bjShiftMs : Int := 8 * 60 * 60 * 1000

/-- Civil date, in the shifted (UTC+8) clock, of an instant given in epoch
milliseconds.  ECMAScript derives the day by flooring the millisecond
count. -/
def bjDate (ms : Int) : CivilDate :=
  civilFromDays ((ms + bjShiftMs).fdiv 86400000)

/-- `getBeijingDateString()`. -/
def getBeijingDateString (ms : Int) : String :=
  dayKeyOfDate (bjDate ms)

/-- `getBeijingHour()`: `getUTCHours()` of the shifted date. -/
def getBeijingHour (ms : Int) : Int :=
  ((ms + bjShiftMs).fdiv 3600000) % 24

/-- The year that `new Date().getFullYear()` reports (server clock,
unshifted; server runs in UTC). -/
def utcYear (ms : Int) : Int :=
  (civilFromDays (ms.fdiv 86400000)).year

/-- `getUTCDay()` in terms of epoch days: 1970-01-01 was a Thursday
(`getUTCDay() = 4`), `0` denotes Sunday. -/
def jsDow (e : Int) : Int := (e + 4) % 7

/-- `getWeekNumber(date)` from `app.js`: move to the Thursday of the
date's Monday-started week, then count weeks from January 1 of the
Thursday's year.  `Math.ceil((diff + 1) / 7)` over the day difference
`diff` is written as `(diff + 7) / 7`, the same integer for every `diff`. -/
def getWeekNumber (d : CivilDate) : Int :=
  let e := d.toEpochDays
  let dayNum := if jsDow e = 0 then 7 else jsDow e
  let thu := e + 4 - dayNum
  let ty := (civilFromDays thu).year
  let yearStart := daysFromCivil ty 1 1
  (thu - yearStart + 7) / 7

/-- `getWeekKey()`: the calendar year of the shifted date, paired with the
week number (`${year}-W${week.padStart(2,'0')}`). -/
def getWeekKeyOf (d : CivilDate) : String :=
  toString d.year ++ "-W" ++ pad2 (getWeekNumber d)

def getWeekKeyMs (ms : Int) : String := getWeekKeyOf (bjDate ms)

/-- `getMonthKey()`: `${year}-${month.padStart(2,'0')}`. -/
def getMonthKeyOf (d : CivilDate) : String :=
  toString d.year ++ "-" ++ pad2 d.month

def getMonthKeyMs (ms : Int) : String := getMonthKeyOf (bjDate ms)

/-- `${today}-${hour}`: the hourly bucket key (hour not zero-padded). -/
def hourKeyMs (ms : Int) : String :=
  getBeijingDateString ms ++ "-" ++ toString (getBeijingHour ms)

/-! ## Counter maps (JavaScript objects with string keys and number values) -/

/-- A JavaScript object used as a `string → count` map: an association
list.  Keys occur at most once in any object built by the source code. -/
abbrev SMap := List (String × Nat)

/-- `obj[k]`, as an `Option`. -/
def SMap.find : SMap → String → Option Nat
  | [], _ => none
  | (k, v) :: t, q => if k = q then some v else SMap.find t q

/-- `obj[k] || 0`. -/
def SMap.getD (m : SMap) (q : String) : Nat := (m.find q).getD 0

/-- `obj[k] = v`: updating an existing key keeps its position, a fresh key
is appended (JavaScript property order). -/
def SMap.set : SMap → String → Nat → SMap
  | [], q, v => [(q, v)]
  | (k, w) :: t, q, v => if k = q then (k, v) :: t else (k, w) :: SMap.set t q v

/-! ## The counter state (`apiStats` in `app.js`) -/

/-- The mutable `apiStats` object.  `lastUpdated` is a wall-clock
timestamp carrying no information the claims mention and is omitted. -/
structure ApiStats where
  totalCalls : Nat
  dailyCalls : SMap
  hourlyCalls : SMap
  weeklyCalls : SMap
  monthlyCalls : SMap
  lastResetDate : String
  lastWeeklyReset : String
  lastMonthlyReset : String
deriving Repr, DecidableEq

/-- Effects of one stats-engine operation: the resulting state, the
`resetHappened` flag returned by `checkAndResetStats`, the number of
explicit `createBackup()` calls made before the final `saveStats()`, and
whether a final `saveStats()` ran. -/
structure StepOut where
  stats : ApiStats
  resetHappened : Bool
  preBackups : Nat
  saved : Bool
deriving Repr, DecidableEq

/-- `saveStats()` additionally calls `createBackup()` exactly when the
persisted `totalCalls` is divisible by 1000
(`apiStats.totalCalls % 1000 === 0`). -/
def saveBackupFired (o : StepOut) : Bool :=
  o.saved && decide (o.stats.totalCalls % 1000 = 0)

/-- `parseInt` on the strings this code feeds it: an optional sign
followed by leading decimal digits; no digits parse to `NaN`, modelled as
`none` (every `NaN < x` comparison is false). -/
def jsParseInt (s : String) : Option Int :=
  let l := s.toList
  let p : Int × List Char :=
    match l with
    | '-' :: t => (-1, t)
    | '+' :: t => (1, t)
    | _ => (1, l)
  let digits := p.2.takeWhile Char.isDigit
  if digits.isEmpty then none
  else some (p.1 * (digits.foldl (fun a c => a * 10 + (c.toNat - 48)) 0 : Nat))

/-- Lexicographic comparison of character lists by code point, the
ECMAScript `<` relation on strings (code-unit order; all keys here are
ASCII). -/
def jsStrLtL : List Char → List Char → Bool
  | [], [] => false
  | [], _ :: _ => true
  | _ :: _, [] => false
  | a :: as, b :: bs =>
    if a.val < b.val then true
    else if b.val < a.val then false
    else jsStrLtL as bs

/-- ECMAScript `s < t` on strings. -/
def jsStrLt (a b : String) : Bool := jsStrLtL a.toList b.toList

/-- `key.split('-')[0]`: the prefix of the key up to the first `'-'`. -/
def jsSplitHead (s : String) : String :=
  String.mk (s.toList.takeWhile (fun c => c != '-'))

/-- The year-prefix test used on weekly and monthly keys:
`parseInt(key.split('-')[0]) < bound` (false when the parse is `NaN`). -/
def jsYearBelow (k : String) (bound : Int) : Bool :=
  match jsParseInt (jsSplitHead k) with
  | some y => decide (y < bound)
  | none => false

/-- `cleanupOldData()` from `app.js` (lines 447–484): prune daily entries
older than 90 days, prune hourly entries by comparing
`key.split('-')[0]` — the *year* component — against the full 7-day
cutoff date string, and prune weekly/monthly entries whose year component
is below `currentYear - 1` / `currentYear - 2`. -/
def cleanupOldData (ms : Int) (s : ApiStats) : ApiStats :=
  let ninetyDaysAgoStr := dayKeyOfDate (dateSubDays (bjDate ms) 90)
  let sevenDaysAgoStr := dayKeyOfDate (dateSubDays (bjDate ms) 7)
  let cy := utcYear ms
  { s with
    dailyCalls := s.dailyCalls.filter (fun kv => !(jsStrLt kv.1 ninetyDaysAgoStr)),
    hourlyCalls := s.hourlyCalls.filter
      (fun kv => !(jsStrLt (jsSplitHead kv.1) sevenDaysAgoStr)),
    weeklyCalls := s.weeklyCalls.filter (fun kv => !(jsYearBelow kv.1 (cy - 1))),
    monthlyCalls := s.monthlyCalls.filter (fun kv => !(jsYearBelow kv.1 (cy - 2))) }

/-- `checkAndResetStats()` from `app.js` (lines 486–534).  Each scope
whose freshly derived key differs from its watermark is zeroed and its
watermark advanced; the day scope additionally creates a backup.  If any
scope rolled over, `cleanupOldData()` runs and the state is saved. -/
def checkAndResetStats (ms : Int) (s : ApiStats) : StepOut :=
  let today := getBeijingDateString ms
  let wk := getWeekKeyMs ms
  let mk := getMonthKeyMs ms
  let s1 := if today ≠ s.lastResetDate then
      { s with lastResetDate := today, dailyCalls := s.dailyCalls.set today 0 }
    else s
  let s2 := if wk ≠ s1.lastWeeklyReset then
      { s1 with lastWeeklyReset := wk, weeklyCalls := s1.weeklyCalls.set wk 0 }
    else s1
  let s3 := if mk ≠ s2.lastMonthlyReset then
      { s2 with lastMonthlyReset := mk, monthlyCalls := s2.monthlyCalls.set mk 0 }
    else s2
  if today ≠ s.lastResetDate ∨ wk ≠ s1.lastWeeklyReset ∨ mk ≠ s2.lastMonthlyReset then
    { stats := cleanupOldData ms s3, resetHappened := true,
      preBackups := if today ≠ s.lastResetDate then 1 else 0, saved := true }
  else
    { stats := s3, resetHappened := false, preBackups := 0, saved := false }

/-- `updateStats()` from `app.js` (lines 600–622): apply pending
rollovers, then increment the total and the current day / hour / week /
month buckets, then save. -/
def updateStats (ms : Int) (s : ApiStats) : StepOut :=
  let today := getBeijingDateString ms
  let hourKey := hourKeyMs ms
  let wk := getWeekKeyMs ms
  let mk := getMonthKeyMs ms
  let c := checkAndResetStats ms s
  let t := c.stats
  { stats :=
      { t with
        totalCalls := t.totalCalls + 1,
        dailyCalls := t.dailyCalls.set today (t.dailyCalls.getD today + 1),
        hourlyCalls := t.hourlyCalls.set hourKey (t.hourlyCalls.getD hourKey + 1),
        weeklyCalls := t.weeklyCalls.set wk (t.weeklyCalls.getD wk + 1),
        monthlyCalls := t.monthlyCalls.set mk (t.monthlyCalls.getD mk + 1) },
    resetHappened := c.resetHappened,
    preBackups := c.preBackups,
    saved := true }

/-- A sequence of `recordCall()` invocations at the given instants. -/
def runCalls (mss : List Int) (s : ApiStats) : ApiStats :=
  mss.foldl (fun t ms => (updateStats ms t).stats) s

/-- `POST /stats/reset-today` (`app.js` lines 823–839): backup, zero the
current day bucket, advance the day watermark, save. -/
def resetToday (ms : Int) (s : ApiStats) : StepOut :=
  let today := getBeijingDateString ms
  { stats := { s with dailyCalls := s.dailyCalls.set today 0, lastResetDate := today },
    resetHappened := false, preBackups := 1, saved := true }

/-- `POST /stats/reset-week` (`app.js` lines 841–854): zero the current
week bucket and advance the weekly watermark; no backup. -/
def resetWeek (ms : Int) (s : ApiStats) : StepOut :=
  let wk := getWeekKeyMs ms
  { stats := { s with weeklyCalls := s.weeklyCalls.set wk 0, lastWeeklyReset := wk },
    resetHappened := false, preBackups := 0, saved := true }

/-- `POST /stats/reset-month` (`app.js` lines 856–869): zero the current
month bucket and advance the monthly watermark; no backup. -/
def resetMonth (ms : Int) (s : ApiStats) : StepOut :=
  let mk := getMonthKeyMs ms
  { stats := { s with monthlyCalls := s.monthlyCalls.set mk 0, lastMonthlyReset := mk },
    resetHappened := false, preBackups := 0, saved := true }

/-- The fresh zeroed state `reset-all` installs. -/
def freshStats (ms : Int) : ApiStats :=
  { totalCalls := 0, dailyCalls := [], hourlyCalls := [], weeklyCalls := [],
    monthlyCalls := [], lastResetDate := getBeijingDateString ms,
    lastWeeklyReset := getWeekKeyMs ms, lastMonthlyReset := getMonthKeyMs ms }

/-- `POST /stats/reset-all` (`app.js` lines 871–896): backup, replace the
whole state with a fresh zeroed one, save. -/
def resetAll (ms : Int) (_s : ApiStats) : StepOut :=
  { stats := freshStats ms, resetHappened := false, preBackups := 1, saved := true }

/-- The three keys of the current instant agree with the state's
watermarks. -/
def samePeriod (ms : Int) (s : ApiStats) : Prop :=
  getBeijingDateString ms = s.lastResetDate ∧
  getWeekKeyMs ms = s.lastWeeklyReset ∧
  getMonthKeyMs ms = s.lastMonthlyReset

instance (ms : Int) (s : ApiStats) : Decidable (samePeriod ms s) := by
  unfold samePeriod; infer_instance

/-! ## The migration merge (`migrateFromFileToDB`, `app.js` lines 404–445) -/

/-- The per-map merge loop:
`Object.keys(fileData.m).forEach(k => db.m[k] = Math.max(file.m[k] || 0, db.m[k] || 0))`.
`orig` is the (unmutated) file-side map being iterated; the accumulator is
the database-side map being written. -/
def mergeStep (orig : SMap) : SMap → List String → SMap
  | dbm, [] => dbm
  | dbm, q :: ks => mergeStep orig (dbm.set q (max (orig.getD q) (dbm.getD q))) ks

/-- Merge a file-side map into a database-side map, key by key over the
file map's keys. -/
def mergeMap (dbm filem : SMap) : SMap :=
  mergeStep filem dbm (filem.map Prod.fst)

/-- The whole migration merge: scalar `max` for `totalCalls`, pointwise
`max` per file key for each counter map; metadata keeps the
database-side values. -/
def mergeStats (db file : ApiStats) : ApiStats :=
  { db with
    totalCalls := max db.totalCalls file.totalCalls,
    dailyCalls := mergeMap db.dailyCalls file.dailyCalls,
    hourlyCalls := mergeMap db.hourlyCalls file.hourlyCalls,
    weeklyCalls := mergeMap db.weeklyCalls file.weeklyCalls,
    monthlyCalls := mergeMap db.monthlyCalls file.monthlyCalls }

/-- A snapshot whose counters are all empty (an empty database side). -/
def zeroCounters (s : ApiStats) : ApiStats :=
  { s with
    totalCalls := 0, dailyCalls := [], hourlyCalls := [],
    weeklyCalls := [], monthlyCalls := [] }

/-- Extensional equality of counter maps. -/
def MapEquiv (a b : SMap) : Prop := ∀ k, SMap.find a k = SMap.find b k

/-- Extensional equality of the counter portions of two states. -/
def CounterEquiv (a b : ApiStats) : Prop :=
  a.totalCalls = b.totalCalls ∧
  MapEquiv a.dailyCalls b.dailyCalls ∧
  MapEquiv a.hourlyCalls b.hourlyCalls ∧
  MapEquiv a.weeklyCalls b.weeklyCalls ∧
  MapEquiv a.monthlyCalls b.monthlyCalls

/-! ## The ISO-8601 week key as the spec words it

The source's `getWeekKey()` is compared against a second definition
written from the spec's words alone ("ISO-8601 week numbering,
Thursday-anchored, Monday week start"): the ISO week key pairs the ISO
week number with the week-based year, the year of the Thursday of the
date's Monday-started week. -/

/-- Modelled from the spec: ISO weekday, 1 = Monday … 7 = Sunday. -/
def isoDayOfWeek (e : Int) : Int := (e + 3) % 7 + 1

/-- Modelled from the spec: the Thursday of the Monday-started week
containing epoch day `e`. -/
def isoThursday (e : Int) : Int := e - (isoDayOfWeek e - 1) + 3

/-- Modelled from the spec: the ISO week-based year (the year of the
anchoring Thursday). -/
def isoWeekYear (d : CivilDate) : Int :=
  (civilFromDays (isoThursday d.toEpochDays)).year

/-- Modelled from the spec: the ISO week number — how many whole weeks lie
between January 1 of the week-based year and the anchoring Thursday,
plus one. -/
def isoWeekNumber (d : CivilDate) : Int :=
  (isoThursday d.toEpochDays - daysFromCivil (isoWeekYear d) 1 1) / 7 + 1

/-- Modelled from the spec: the full ISO-8601 week key. -/
def isoWeekKeyOf (d : CivilDate) : String :=
  toString (isoWeekYear d) ++ "-W" ++ pad2 (isoWeekNumber d)

def isoWeekKeyMs (ms : Int) : String := isoWeekKeyOf (bjDate ms)

/-! ## Startup loading (`loadStats`, `app.js` lines 537–575, file backend) -/

/-- The condition of the stats file at startup. -/
inductive FileState
  | absent
  | corrupt
  | valid (s : ApiStats)

/-- `fileOperations.loadStats()` (`app.js` lines 369–390): an absent file
and a file whose JSON fails to parse both yield `null` (the parse error is
caught and logged). -/
def fileLoadStats : FileState → Option ApiStats
  | .absent => none
  | .corrupt => none
  | .valid s => some s

/-- The *unshifted* server-clock day key,
`new Date().toISOString().split('T')[0]` (server runs in UTC). -/
def utcDayKey (ms : Int) : String :=
  dayKeyOfDate (civilFromDays (ms.fdiv 86400000))

/-- `String.prototype.slice(0, 7)` on the ASCII strings this code slices. -/
def jsSlice7 (s : String) : String := String.mk (s.toList.take 7)

/-- The module-level initialiser of `apiStats` (`app.js` lines 17–27):
empty counters, and watermarks taken from the *unshifted* clock —
`lastResetDate` and `lastWeeklyReset` are both set to the UTC
`"YYYY-MM-DD"` day string (so the weekly watermark is in day-key format,
never in `getWeekKey()`'s `"YYYY-Www"` format), `lastMonthlyReset` to its
first seven characters. -/
def initialApiStats (ms : Int) : ApiStats :=
  { totalCalls := 0, dailyCalls := [], hourlyCalls := [], weeklyCalls := [],
    monthlyCalls := [], lastResetDate := utcDayKey ms,
    lastWeeklyReset := utcDayKey ms, lastMonthlyReset := jsSlice7 (utcDayKey ms) }

/-- `loadStats()` on the file backend, starting from the module-level
initial `apiStats` created at instant `msStart`: adopt the loaded
snapshot if there is one, keep the initial state otherwise, then run the
rollover check at instant `msNow`.  The rollover check is the only step
that can persist; the outer error handler that would save a fresh state
is not reached, because the file backend reports a corrupt file as
`null` rather than throwing. -/
def loadStatsStartup (msStart msNow : Int) (f : FileState) : StepOut :=
  match fileLoadStats f with
  | some s => checkAndResetStats msNow s
  | none => checkAndResetStats msNow (initialApiStats msStart)

/-- Every pair of a counter map has a zero count. -/
def zeroVals (m : SMap) : Prop := ∀ kv ∈ m, kv.2 = 0

/-! ## Concrete instants and states used by scenarios and witnesses -/

/-- 2025-01-01 12:00 in the shifted (UTC+8) clock. -/
def msJan1 : Int := daysFromCivil 2025 1 1 * 86400000 + 4 * 3600000

/-- 2025-01-02 12:00 in the shifted clock. -/
def msJan2 : Int := daysFromCivil 2025 1 2 * 86400000 + 4 * 3600000

/-- 2025-02-15 12:00 in the shifted clock. -/
def msFeb15 : Int := daysFromCivil 2025 2 15 * 86400000 + 4 * 3600000

/-- 2025-09-28 12:00 in the shifted clock. -/
def msSep28 : Int := daysFromCivil 2025 9 28 * 86400000 + 4 * 3600000

/-- 2024-12-30 12:00 in the shifted clock (a Monday belonging to ISO week
2025-W01). -/
def msDec30 : Int := daysFromCivil 2024 12 30 * 86400000 + 4 * 3600000

/-- An empty state whose watermarks are current at `msJan1`. -/
def emptyJan1 : ApiStats :=
  { totalCalls := 0, dailyCalls := [], hourlyCalls := [], weeklyCalls := [],
    monthlyCalls := [], lastResetDate := "2025-01-01",
    lastWeeklyReset := "2025-W01", lastMonthlyReset := "2025-01" }

/-- A state holding stale week/month entries, one day behind at
`msFeb15`, so the day scope rolls over. -/
def staleState : ApiStats :=
  { totalCalls := 42, dailyCalls := [("2024-10-01", 2)], hourlyCalls := [],
    weeklyCalls := [("2024-W03", 7)], monthlyCalls := [("2023-01", 4)],
    lastResetDate := "2025-02-14", lastWeeklyReset := "2025-W07",
    lastMonthlyReset := "2025-02" }

/-- A state holding an hourly entry only three days old at `msSep28`, one
day behind so the day scope rolls over. -/
def recentHourlyState : ApiStats :=
  { totalCalls := 10, dailyCalls := [], hourlyCalls := [("2025-09-25-5", 3)],
    weeklyCalls := [], monthlyCalls := [], lastResetDate := "2025-09-27",
    lastWeeklyReset := "2025-W39", lastMonthlyReset := "2025-09" }

/-! ## Basic lemmas about the map model -/

theorem SMap.find_set_self (m : SMap) (k : String) (v : Nat) :
    (m.set k v).find k = some v := by
  induction m with
  | nil => simp [SMap.set, SMap.find]
  | cons kv t ih =>
    obtain ⟨k', w⟩ := kv
    by_cases h : k' = k <;> simp [SMap.set, SMap.find, h, ih]

theorem SMap.find_set_ne (m : SMap) (k : String) (v : Nat) (q : String)
    (h : k ≠ q) : (m.set k v).find q = m.find q := by
  induction m with
  | nil => simp [SMap.set, SMap.find, h]
  | cons kv t ih =>
    obtain ⟨k', w⟩ := kv
    by_cases h' : k' = k
    · subst h'
      simp [SMap.set, SMap.find, h]
    · simp [SMap.set, SMap.find, h']
      by_cases h'' : k' = q <;> simp [h'', ih]

theorem SMap.getD_set_self (m : SMap) (k : String) (v : Nat) :
    (m.set k v).getD k = v := by
  simp [SMap.getD, SMap.find_set_self]

/-- A key every occurrence of which the filter predicate rejects is absent
from the filtered map. -/
theorem SMap.find_filter_eq_none (m : SMap) (p : String × Nat → Bool)
    (k : String) (h : ∀ v, p (k, v) = false) :
    SMap.find (m.filter p) k = none := by
  induction m with
  | nil => simp [SMap.find]
  | cons kv t ih =>
    obtain ⟨k', w⟩ := kv
    by_cases hk : k' = k
    · subst hk
      simp [List.filter, h w, ih]
    · by_cases hp : p (k', w) <;> simp [List.filter, hp, SMap.find, hk, ih]

/-! ## Frame facts about `cleanupOldData` -/

@[simp] theorem cleanup_totalCalls (ms : Int) (s : ApiStats) :
    (cleanupOldData ms s).totalCalls = s.totalCalls := rfl

@[simp] theorem cleanup_lastResetDate (ms : Int) (s : ApiStats) :
    (cleanupOldData ms s).lastResetDate = s.lastResetDate := rfl

@[simp] theorem cleanup_lastWeeklyReset (ms : Int) (s : ApiStats) :
    (cleanupOldData ms s).lastWeeklyReset = s.lastWeeklyReset := rfl

@[simp] theorem cleanup_lastMonthlyReset (ms : Int) (s : ApiStats) :
    (cleanupOldData ms s).lastMonthlyReset = s.lastMonthlyReset := rfl

/-! ## Helper lemmas about `checkAndResetStats` -/

/-- Within the current period the rollover check is a no-op: no state
change, no backup, no save. -/
theorem checkAndReset_noop (ms : Int) (s : ApiStats) (h : samePeriod ms s) :
    checkAndResetStats ms s =
      { stats := s, resetHappened := false, preBackups := 0, saved := false } := by
  obtain ⟨h1, h2, h3⟩ := h
  simp [checkAndResetStats, h1, h2, h3]

/-- `checkAndResetStats` never changes `totalCalls`. -/
theorem checkAndReset_totalCalls (ms : Int) (s : ApiStats) :
    (checkAndResetStats ms s).stats.totalCalls = s.totalCalls := by
  by_cases h1 : getBeijingDateString ms = s.lastResetDate <;>
  by_cases h2 : getWeekKeyMs ms = s.lastWeeklyReset <;>
  by_cases h3 : getMonthKeyMs ms = s.lastMonthlyReset <;>
 simp [checkAndResetStats, h1, h2, h3]

/-- After the check, every watermark equals the current key. -/
theorem checkAndReset_watermarks (ms : Int) (s : ApiStats) :
    (checkAndResetStats ms s).stats.lastResetDate = getBeijingDateString ms ∧
    (checkAndResetStats ms s).stats.lastWeeklyReset = getWeekKeyMs ms ∧
    (checkAndResetStats ms s).stats.lastMonthlyReset = getMonthKeyMs ms := by
  by_cases h1 : getBeijingDateString ms = s.lastResetDate <;>
  by_cases h2 : getWeekKeyMs ms = s.lastWeeklyReset <;>
  by_cases h3 : getMonthKeyMs ms = s.lastMonthlyReset <;>
 simp [checkAndResetStats, h1, h2, h3]

/-- The `saved` flag of the rollover check is exactly its
`resetHappened` flag. -/
theorem checkAndReset_saved_eq_reset (ms : Int) (s : ApiStats) :
    (checkAndResetStats ms s).saved = (checkAndResetStats ms s).resetHappened := by
  by_cases h1 : getBeijingDateString ms = s.lastResetDate <;>
  by_cases h2 : getWeekKeyMs ms = s.lastWeeklyReset <;>
  by_cases h3 : getMonthKeyMs ms = s.lastMonthlyReset <;>
 simp [checkAndResetStats, h1, h2, h3]

/-! ## Helper lemmas about `updateStats` and the reset endpoints -/

theorem updateStats_totalCalls (ms : Int) (s : ApiStats) :
    (updateStats ms s).stats.totalCalls = s.totalCalls + 1 := by
  simp [updateStats, checkAndReset_totalCalls]

theorem updateStats_saved (ms : Int) (s : ApiStats) :
    (updateStats ms s).saved = true := rfl

theorem updateStats_lastResetDate (ms : Int) (s : ApiStats) :
    (updateStats ms s).stats.lastResetDate = (checkAndResetStats ms s).stats.lastResetDate := rfl

theorem updateStats_lastWeeklyReset (ms : Int) (s : ApiStats) :
    (updateStats ms s).stats.lastWeeklyReset = (checkAndResetStats ms s).stats.lastWeeklyReset := rfl

theorem updateStats_lastMonthlyReset (ms : Int) (s : ApiStats) :
    (updateStats ms s).stats.lastMonthlyReset = (checkAndResetStats ms s).stats.lastMonthlyReset := rfl

/-- A call inside the current period keeps all three watermarks. -/
theorem updateStats_watermarks_of_same (ms : Int) (s : ApiStats)
    (h : samePeriod ms s) :
    (updateStats ms s).stats.lastResetDate = s.lastResetDate ∧
    (updateStats ms s).stats.lastWeeklyReset = s.lastWeeklyReset ∧
    (updateStats ms s).stats.lastMonthlyReset = s.lastMonthlyReset := by
  rw [updateStats_lastResetDate, updateStats_lastWeeklyReset,
    updateStats_lastMonthlyReset, checkAndReset_noop ms s h]
  exact ⟨rfl, rfl, rfl⟩

theorem runCalls_nil (s : ApiStats) : runCalls [] s = s := rfl

theorem runCalls_cons (ms : Int) (mss : List Int) (s : ApiStats) :
    runCalls (ms :: mss) s = runCalls mss (updateStats ms s).stats := rfl

/-- A sequence of calls all inside the current period adds its length to
`totalCalls`. -/
theorem runCalls_totalCalls (mss : List Int) :
    ∀ s : ApiStats, (∀ ms ∈ mss, samePeriod ms s) →
      (runCalls mss s).totalCalls = s.totalCalls + mss.length := by
  induction mss with
  | nil => intro s _; simp [runCalls_nil]
  | cons a t ih =>
    intro s h
    have ha : samePeriod a s := h a (by simp)
    have hs : ∀ ms ∈ t, samePeriod ms (updateStats a s).stats := by
      intro ms hm
      obtain ⟨w1, w2, w3⟩ := updateStats_watermarks_of_same a s ha
      obtain ⟨p1, p2, p3⟩ := h ms (by simp [hm])
      exact ⟨by rw [w1]; exact p1, by rw [w2]; exact p2, by rw [w3]; exact p3⟩
    rw [runCalls_cons, ih (updateStats a s).stats hs, updateStats_totalCalls]
    simp
    omega

/-! ## Characterisation of the migration merge -/

theorem mergeStep_find (orig : SMap) (ks : List String) :
    ∀ (dbm : SMap) (k : String),
      SMap.find (mergeStep orig dbm ks) k =
        if k ∈ ks then some (max (orig.getD k) (dbm.getD k)) else dbm.find k := by
  induction ks with
  | nil => intro dbm k; simp [mergeStep]
  | cons q ks ih =>
    intro dbm k
    rw [mergeStep, ih]
    by_cases hk : k = q
    · subst hk
      by_cases hmem : k ∈ ks
      · have hin : (dbm.set k (max (orig.getD k) (dbm.getD k))).getD k
            = max (orig.getD k) (dbm.getD k) := SMap.getD_set_self _ _ _
        simp only [hmem, if_true, List.mem_cons, true_or, hin]
        congr 1
        omega
      · simp [hmem, SMap.find_set_self]
    · have hz : ∀ v, (dbm.set q v).find k = dbm.find k :=
        fun v => SMap.find_set_ne _ _ _ _ (fun h => hk h.symm)
      have hz' : ∀ v, (dbm.set q v).getD k = dbm.getD k := by
        intro v; unfold SMap.getD; rw [hz]
      by_cases hmem : k ∈ ks <;> simp [hmem, hk, hz, hz']

theorem mem_keys_iff_find (m : SMap) (k : String) :
    k ∈ m.map Prod.fst ↔ SMap.find m k ≠ none := by
  induction m with
  | nil => simp [SMap.find]
  | cons kv t ih =>
    obtain ⟨k', v⟩ := kv
    by_cases h : k' = k
    · subst h; simp [SMap.find]
    · rw [List.map_cons]
      simp only [List.mem_cons, SMap.find, if_neg h]
      constructor
      · rintro (rfl | hm)
        · exact absurd rfl h
        · exact ih.mp hm
      · intro hf
        exact Or.inr (ih.mpr hf)

/-- Value of the merged map at any key: pointwise maximum over the union
of the two key sets. -/
theorem mergeMap_find (dbm filem : SMap) (k : String) :
    SMap.find (mergeMap dbm filem) k =
      match SMap.find filem k with
      | none => SMap.find dbm k
      | some _ => some (max (filem.getD k) (dbm.getD k)) := by
  unfold mergeMap
  rw [mergeStep_find]
  rcases hf : SMap.find filem k with _ | v
  · have : k ∉ filem.map Prod.fst := by rw [mem_keys_iff_find]; simp [hf]
    simp [this]
  · have : k ∈ filem.map Prod.fst := by rw [mem_keys_iff_find]; simp [hf]
    simp [this]

theorem mergeMap_comm (a b : SMap) : MapEquiv (mergeMap a b) (mergeMap b a) := by
  intro k
  rw [mergeMap_find, mergeMap_find]
  rcases ha : SMap.find a k with _ | va <;> rcases hb : SMap.find b k with _ | vb <;>
 · simp [SMap.getD, ha, hb]
   try omega

theorem mergeMap_idem (a b : SMap) :
    MapEquiv (mergeMap (mergeMap a b) b) (mergeMap a b) := by
  intro k
  rw [mergeMap_find, mergeMap_find]
  rcases hb : SMap.find b k with _ | vb
  · rfl
  · have hab : SMap.find (mergeMap a b) k = some (max (b.getD k) (a.getD k)) := by
      rw [mergeMap_find, hb]
    have hg : SMap.getD (mergeMap a b) k = max (SMap.getD b k) (SMap.getD a k) := by
      unfold SMap.getD at hab ⊢
      rw [hab]
      rfl
    show some (max (SMap.getD b k) (SMap.getD (mergeMap a b) k))
        = some (max (SMap.getD b k) (SMap.getD a k))
    rw [hg]
    congr 1
    omega

theorem mergeMap_getD_left (a b : SMap) (k : String) :
    SMap.getD a k ≤ SMap.getD (mergeMap a b) k := by
  have h := mergeMap_find a b k
  rcases hb : SMap.find b k with _ | vb <;> rw [hb] at h <;> simp [SMap.getD, h]

theorem mergeMap_getD_right (a b : SMap) (k : String) :
    SMap.getD b k ≤ SMap.getD (mergeMap a b) k := by
  have h := mergeMap_find a b k
  rcases hb : SMap.find b k with _ | vb <;> rw [hb] at h <;> simp [SMap.getD, h, hb]

theorem mergeMap_none_iff (a b : SMap) (k : String) :
    SMap.find (mergeMap a b) k = none ↔
      SMap.find a k = none ∧ SMap.find b k = none := by
  have h := mergeMap_find a b k
  rcases hb : SMap.find b k with _ | vb <;> rw [hb] at h <;> simp [h, hb]

theorem mergeMap_empty_db (b : SMap) : MapEquiv (mergeMap [] b) b := by
  intro k
  rw [mergeMap_find]
  rcases hb : SMap.find b k with _ | vb
  · simp [SMap.find]
  · simp [SMap.getD, hb, SMap.find]

/-! ## Retention lemmas about `cleanupOldData` -/

theorem cleanup_daily_old_absent (ms : Int) (t : ApiStats) (kd : String)
    (h : jsStrLt kd (dayKeyOfDate (dateSubDays (bjDate ms) 90)) = true) :
    SMap.find (cleanupOldData ms t).dailyCalls kd = none := by
  apply SMap.find_filter_eq_none
  intro v
  simp [h]

theorem cleanup_weekly_old_absent (ms : Int) (t : ApiStats) (kw : String)
    (yw : Int) (hp : jsParseInt (jsSplitHead kw) = some yw)
    (hy : yw < utcYear ms - 1) :
    SMap.find (cleanupOldData ms t).weeklyCalls kw = none := by
  apply SMap.find_filter_eq_none
  intro v
  simp [jsYearBelow, hp, hy]

theorem cleanup_monthly_old_absent (ms : Int) (t : ApiStats) (km : String)
    (ym : Int) (hp : jsParseInt (jsSplitHead km) = some ym)
    (hy : ym < utcYear ms - 2) :
    SMap.find (cleanupOldData ms t).monthlyCalls km = none := by
  apply SMap.find_filter_eq_none
  intro v
  simp [jsYearBelow, hp, hy]

/-- When a rollover fires, the resulting state is `cleanupOldData` of some
intermediate state. -/
theorem checkAndReset_stats_of_reset (ms : Int) (s : ApiStats)
    (h : (checkAndResetStats ms s).resetHappened = true) :
    ∃ t, (checkAndResetStats ms s).stats = cleanupOldData ms t := by
  by_cases h1 : getBeijingDateString ms = s.lastResetDate <;>
  by_cases h2 : getWeekKeyMs ms = s.lastWeeklyReset <;>
  by_cases h3 : getMonthKeyMs ms = s.lastMonthlyReset <;>
 simp [checkAndResetStats, h1, h2, h3] at h ⊢

/-! ## The startup watermark-format mismatch

`app.js` initialises `lastWeeklyReset` with a `"YYYY-MM-DD"` day string,
while `getWeekKey()` always returns `"YYYY-Www"`.  A day key never
contains the character `'W'` (its pieces are integer digits, minus signs
and `'-'`/`'0'` padding), while every week key does, so at startup the
weekly watermark never matches and the rollover check always fires. -/

theorem digitChar_ne_W (k : Nat) : Nat.digitChar k ≠ 'W' := by
  by_cases hk : k < 16
  · interval_cases k <;> decide
  · unfold Nat.digitChar
    repeat rw [if_neg (by omega)]
    decide

theorem toDigitsCore_ne_W (fuel : Nat) : ∀ (n : Nat) (ds : List Char),
    (∀ c ∈ ds, c ≠ 'W') → ∀ c ∈ Nat.toDigitsCore 10 fuel n ds, c ≠ 'W' := by
  induction fuel with
  | zero => intro n ds h c hc; exact h c hc
  | succ fuel ih =>
    intro n ds h c hc
    rw [Nat.toDigitsCore] at hc
    by_cases h0 : n / 10 = 0
    · simp only [h0, if_true] at hc
      rcases List.mem_cons.mp hc with rfl | hc
      · exact digitChar_ne_W _
      · exact h c hc
    · simp only [h0, if_false] at hc
      refine ih (n / 10) (Nat.digitChar (n % 10) :: ds) ?_ c hc
      intro c' hc'
      rcases List.mem_cons.mp hc' with rfl | hc'
      · exact digitChar_ne_W _
      · exact h c' hc'

theorem natRepr_ne_W (n : Nat) : ∀ c ∈ (Nat.repr n).data, c ≠ 'W' := by
  intro c hc
  exact toDigitsCore_ne_W (n + 1) n [] (by simp) c hc

theorem intToString_ne_W (n : Int) : ∀ c ∈ (toString n).data, c ≠ 'W' := by
  cases n with
  | ofNat m => exact natRepr_ne_W m
  | negSucc m =>
    intro c hc
    rcases List.mem_cons.mp hc with rfl | hc
    · decide
    · exact natRepr_ne_W (m + 1) c hc

theorem padZero_ne_W (w : Nat) (s : String) (h : ∀ c ∈ s.data, c ≠ 'W') :
    ∀ c ∈ (padZero w s).data, c ≠ 'W' := by
  unfold padZero
  split_ifs
  · intro c hc
    rcases List.mem_append.mp hc with hc | hc
    · have := List.eq_of_mem_replicate hc
      subst this
      decide
    · exact h c hc
  · exact h

theorem dayKey_ne_W (d : CivilDate) : ∀ c ∈ (dayKeyOfDate d).data, c ≠ 'W' := by
  intro c hc
  rcases List.mem_append.mp hc with hc | hc
  · rcases List.mem_append.mp hc with hc | hc
    · rcases List.mem_append.mp hc with hc | hc
      · rcases List.mem_append.mp hc with hc | hc
        · exact padZero_ne_W 4 _ (intToString_ne_W d.year) c hc
        · rcases List.mem_singleton.mp hc with rfl; decide
      · exact padZero_ne_W 2 _ (intToString_ne_W d.month) c hc
    · rcases List.mem_singleton.mp hc with rfl; decide
  · exact padZero_ne_W 2 _ (intToString_ne_W d.day) c hc

theorem weekKey_mem_W (ms : Int) : 'W' ∈ (getWeekKeyMs ms).data := by
  show 'W' ∈ ((toString (bjDate ms).year ++ "-W")
      ++ pad2 (getWeekNumber (bjDate ms))).data
  refine List.mem_append.mpr (Or.inl ?_)
  exact List.mem_append.mpr (Or.inr (by decide))

/-- A week key is never a day key: the former contains `'W'`, the latter
cannot. -/
theorem weekKey_ne_dayKey (ms : Int) (d : CivilDate) :
    getWeekKeyMs ms ≠ dayKeyOfDate d := by
  intro h
  have hW := weekKey_mem_W ms
  rw [h] at hW
  exact dayKey_ne_W d 'W' hW rfl

/-- When the current week key differs from the weekly watermark, the
rollover check fires and saves, whatever the other scopes do. -/
theorem checkAndReset_fires_of_week_ne (ms : Int) (s : ApiStats)
    (h : getWeekKeyMs ms ≠ s.lastWeeklyReset) :
    (checkAndResetStats ms s).saved = true ∧
    (checkAndResetStats ms s).resetHappened = true := by
  by_cases h1 : getBeijingDateString ms = s.lastResetDate <;>
  by_cases h3 : getMonthKeyMs ms = s.lastMonthlyReset <;>
 simp [checkAndResetStats, h1, h, h3]

/-! ## Zero-valued counter maps survive the rollover check -/

theorem SMap.find_mem (m : SMap) (k : String) (v : Nat)
    (h : SMap.find m k = some v) : (k, v) ∈ m := by
  induction m with
  | nil => simp [SMap.find] at h
  | cons kv t ih =>
    obtain ⟨k', w⟩ := kv
    by_cases hk : k' = k
    · subst hk
      simp [SMap.find] at h
      subst h
      exact List.mem_cons_self _ _
    · simp [SMap.find, hk] at h
      exact List.mem_cons_of_mem _ (ih h)

theorem zeroVals_getD (m : SMap) (k : String) (h : zeroVals m) :
    SMap.getD m k = 0 := by
  unfold SMap.getD
  rcases hf : SMap.find m k with _ | v
  · rfl
  · exact h (k, v) (SMap.find_mem m k v hf)

theorem zeroVals_set0 (m : SMap) (k : String) (h : zeroVals m) :
    zeroVals (SMap.set m k 0) := by
  induction m with
  | nil =>
    intro kv hkv
    rcases List.mem_singleton.mp hkv with rfl
    rfl
  | cons hd t ih =>
    obtain ⟨k', w⟩ := hd
    have ht : zeroVals t := fun kv hkv => h kv (List.mem_cons_of_mem _ hkv)
    by_cases hk : k' = k
    · intro kv hkv
      rw [SMap.set, if_pos hk] at hkv
      rcases List.mem_cons.mp hkv with rfl | hkv
      · rfl
      · exact ht kv hkv
    · intro kv hkv
      rw [SMap.set, if_neg hk] at hkv
      rcases List.mem_cons.mp hkv with rfl | hkv
      · exact h _ (List.mem_cons_self _ _)
      · exact ih ht kv hkv

theorem zeroVals_filter (m : SMap) (p : String × Nat → Bool) (h : zeroVals m) :
    zeroVals (m.filter p) :=
  fun kv hkv => h kv (List.mem_of_mem_filter hkv)

/-- The rollover check keeps all four counter maps zero-valued: it only
writes zeros and deletes entries. -/
theorem checkAndReset_zeroVals (ms : Int) (s : ApiStats)
    (hd : zeroVals s.dailyCalls) (hh : zeroVals s.hourlyCalls)
    (hw : zeroVals s.weeklyCalls) (hm : zeroVals s.monthlyCalls) :
    zeroVals (checkAndResetStats ms s).stats.dailyCalls ∧
    zeroVals (checkAndResetStats ms s).stats.hourlyCalls ∧
    zeroVals (checkAndResetStats ms s).stats.weeklyCalls ∧
    zeroVals (checkAndResetStats ms s).stats.monthlyCalls := by
  by_cases h1 : getBeijingDateString ms = s.lastResetDate <;>
  by_cases h2 : getWeekKeyMs ms = s.lastWeeklyReset <;>
  by_cases h3 : getMonthKeyMs ms = s.lastMonthlyReset <;>
 simp only [checkAndResetStats, h1, h2, h3, cleanupOldData, ne_eq,
    not_true_eq_false, not_false_eq_true, if_true, if_false, ite_true,
    ite_false, or_true, or_false, true_or, false_or, or_self] <;>
 refine ⟨?_, ?_, ?_, ?_⟩ <;>
 (repeat
    first
      | exact hd
      | exact hh
      | exact hw
      | exact hm
      | apply zeroVals_filter
      | apply zeroVals_set0)

/-! ## Claims -/

set_option maxRecDepth 10000

/-- C7: `totalCalls` is monotonically non-decreasing under every operation
except the explicit full reset: `recordCall()` (`updateStats`) increases
it by exactly 1, the rollover check and the today/week/month resets never
change it, and only the full reset (`reset-all`) sets it back to 0. -/
theorem C7_totalCalls_monotone : ∀ (ms : Int) (s : ApiStats),
    (updateStats ms s).stats.totalCalls = s.totalCalls + 1 ∧
    (checkAndResetStats ms s).stats.totalCalls = s.totalCalls ∧
    (resetToday ms s).stats.totalCalls = s.totalCalls ∧
    (resetWeek ms s).stats.totalCalls = s.totalCalls ∧
    (resetMonth ms s).stats.totalCalls = s.totalCalls ∧
    (resetAll ms s).stats.totalCalls = 0 := by
  intro ms s
  exact ⟨updateStats_totalCalls ms s, checkAndReset_totalCalls ms s, rfl, rfl, rfl, rfl⟩

/-- C8: the rollover check is idempotent within one period: immediately
repeating `checkAndResetStats` at the same instant changes no counter and
no watermark, creates no backup, saves nothing, and reports that no
rollover occurred. -/
theorem C8_rollover_idempotent : ∀ (ms : Int) (s : ApiStats),
    checkAndResetStats ms (checkAndResetStats ms s).stats =
      { stats := (checkAndResetStats ms s).stats, resetHappened := false,
        preBackups := 0, saved := false } := by
  intro ms s
  obtain ⟨h1, h2, h3⟩ := checkAndReset_watermarks ms s
  exact checkAndReset_noop ms _ ⟨h1.symm, h2.symm, h3.symm⟩

/-- C10: whenever `saveStats()` runs with persistence enabled it creates a
backup exactly when the just-persisted `totalCalls` is divisible by 1000;
in particular every save performed while `totalCalls` is 0 — e.g. the save
of `reset-all` itself and the save of any further reset before the next
recorded call — triggers a backup, not only every 1000th recorded call. -/
theorem C10_save_backup_on_multiples : ∀ (ms ms2 : Int) (s : ApiStats),
    (saveBackupFired (updateStats ms s) = true ↔ (s.totalCalls + 1) % 1000 = 0) ∧
    (saveBackupFired (resetWeek ms s) = true ↔ s.totalCalls % 1000 = 0) ∧
    (saveBackupFired (resetMonth ms s) = true ↔ s.totalCalls % 1000 = 0) ∧
    (saveBackupFired (resetToday ms s) = true ↔ s.totalCalls % 1000 = 0) ∧
    saveBackupFired (resetAll ms s) = true ∧
    saveBackupFired (resetWeek ms2 (resetAll ms s).stats) = true ∧
    saveBackupFired (resetMonth ms2 (resetAll ms s).stats) = true ∧
    saveBackupFired (resetToday ms2 (resetAll ms s).stats) = true := by
  intro ms ms2 s
  refine ⟨?_, ?_, ?_, ?_, ?_, ?_, ?_, ?_⟩ <;>
 simp [saveBackupFired, resetWeek, resetMonth, resetToday, resetAll, freshStats,
    updateStats_totalCalls, updateStats_saved]

/-- C2 (code bug): the hourly pruning in `cleanupOldData` compares
`key.split('-')[0]` — the *year* component of an `"YYYY-MM-DD-h"` key —
against the full 7-day cutoff date string, so at a rollover on 2025-09-28
an hourly entry only three days old (`"2025-09-25-5"`, whose day
`"2025-09-25"` is not below the cutoff `"2025-09-21"`) is nevertheless
deleted, contradicting the 7-day retention the spec states. -/
theorem C2_hourly_prune_deletes_recent_entry :
    dayKeyOfDate (dateSubDays (bjDate msSep28) 7) = "2025-09-21" ∧
    jsStrLt "2025-09-25" "2025-09-21" = false ∧
    jsSplitHead "2025-09-25-5" = "2025" ∧
    jsStrLt "2025" "2025-09-21" = true ∧
    (checkAndResetStats msSep28 recentHourlyState).resetHappened = true ∧
    SMap.find recentHourlyState.hourlyCalls "2025-09-25-5" = some 3 ∧
    SMap.find (checkAndResetStats msSep28 recentHourlyState).stats.hourlyCalls
      "2025-09-25-5" = none := by
  decide

/-- C3 counterexample: at a rollover on 2025-02-15 (UTC+8), the weekly
entry `"2024-W03"` — 13 months in the past — and the monthly entry
`"2023-01"` — 25 months in the past — both survive, though the claim says
weekly entries more than 1 year old and monthly entries more than 2 years
old are absent after any rollover. -/
theorem C3_counterexample_stale_entries_survive :
    (checkAndResetStats msFeb15 staleState).resetHappened = true ∧
    SMap.find (checkAndResetStats msFeb15 staleState).stats.weeklyCalls
      "2024-W03" = some 7 ∧
    SMap.find (checkAndResetStats msFeb15 staleState).stats.monthlyCalls
      "2023-01" = some 4 := by
  decide

/-- C3 (amended): after any rollover, a daily entry whose key is
lexicographically below the day key 90 days before the current day is
absent; a weekly entry whose leading year component is at least two years
below the current (server-clock) year is absent; a monthly entry whose
leading year component is at least three years below it is absent.
Entries from the previous calendar year — including 13-month-old weekly
entries — are retained. -/
theorem C3_amended_retention : ∀ (ms : Int) (s : ApiStats)
    (kd kw km : String) (yw ym : Int),
    (checkAndResetStats ms s).resetHappened = true →
    (jsStrLt kd (dayKeyOfDate (dateSubDays (bjDate ms) 90)) = true →
      SMap.find (checkAndResetStats ms s).stats.dailyCalls kd = none) ∧
    (jsParseInt (jsSplitHead kw) = some yw → yw < utcYear ms - 1 →
      SMap.find (checkAndResetStats ms s).stats.weeklyCalls kw = none) ∧
    (jsParseInt (jsSplitHead km) = some ym → ym < utcYear ms - 2 →
      SMap.find (checkAndResetStats ms s).stats.monthlyCalls km = none) := by
  intro ms s kd kw km yw ym hr
  obtain ⟨t, ht⟩ := checkAndReset_stats_of_reset ms s hr
  rw [ht]
  exact ⟨fun h => cleanup_daily_old_absent ms t kd h,
    fun hp hy => cleanup_weekly_old_absent ms t kw yw hp hy,
    fun hp hy => cleanup_monthly_old_absent ms t km ym hp hy⟩

/-- Witness for the amended C3, at the 2025-02-15 rollover. -/
theorem C3_amended_retention_witness :
    SMap.find (checkAndResetStats msFeb15 staleState).stats.dailyCalls
      "2024-10-01" = none ∧
    SMap.find (checkAndResetStats msFeb15 staleState).stats.weeklyCalls
      "2023-W05" = none ∧
    SMap.find (checkAndResetStats msFeb15 staleState).stats.monthlyCalls
      "2022-06" = none := by
  have h := C3_amended_retention msFeb15 staleState "2024-10-01" "2023-W05"
    "2022-06" 2023 2022 (by decide)
  exact ⟨h.1 (by decide), h.2.1 (by decide) (by decide),
    h.2.2 (by decide) (by decide)⟩

/-- The source's week number equals the spec-worded ISO week number: both
anchor on the Thursday of the Monday-started week and count weeks from
January 1 of the Thursday's year. -/
theorem getWeekNumber_eq_isoWeekNumber (d : CivilDate) :
    getWeekNumber d = isoWeekNumber d := by
  simp only [getWeekNumber, isoWeekNumber, isoWeekYear, isoThursday,
    isoDayOfWeek, jsDow]
  have hthu : d.toEpochDays + 4 -
        (if (d.toEpochDays + 4) % 7 = 0 then 7 else (d.toEpochDays + 4) % 7)
      = d.toEpochDays - ((d.toEpochDays + 3) % 7 + 1 - 1) + 3 := by
    omega
  rw [hthu]
  omega

/-- C1: a sequence of `recordCall()` invocations inside the current
day/week/month adds its length to `totalCalls`; every single call first
applies pending rollovers and then increments `totalCalls` and the
current day, hour, week and month buckets by exactly 1; and in the spec
scenario (five calls on 2025-01-01, one on 2025-01-02) the rollover
fires and the result is `dailyCalls["2025-01-02"] = 1`,
`dailyCalls["2025-01-01"]` unchanged at 5, `totalCalls = 6`. -/
theorem C1_recordCall_counting :
    (∀ (s : ApiStats) (mss : List Int), (∀ ms ∈ mss, samePeriod ms s) →
      (runCalls mss s).totalCalls = s.totalCalls + mss.length) ∧
    (∀ (ms : Int) (t : ApiStats),
      (updateStats ms t).stats.totalCalls
          = (checkAndResetStats ms t).stats.totalCalls + 1 ∧
      SMap.getD (updateStats ms t).stats.dailyCalls (getBeijingDateString ms)
          = SMap.getD (checkAndResetStats ms t).stats.dailyCalls
              (getBeijingDateString ms) + 1 ∧
      SMap.getD (updateStats ms t).stats.hourlyCalls (hourKeyMs ms)
          = SMap.getD (checkAndResetStats ms t).stats.hourlyCalls (hourKeyMs ms) + 1 ∧
      SMap.getD (updateStats ms t).stats.weeklyCalls (getWeekKeyMs ms)
          = SMap.getD (checkAndResetStats ms t).stats.weeklyCalls (getWeekKeyMs ms) + 1 ∧
      SMap.getD (updateStats ms t).stats.monthlyCalls (getMonthKeyMs ms)
          = SMap.getD (checkAndResetStats ms t).stats.monthlyCalls (getMonthKeyMs ms) + 1) ∧
    ((updateStats msJan2
        (runCalls [msJan1, msJan1, msJan1, msJan1, msJan1] emptyJan1)).resetHappened
        = true ∧
      SMap.getD (updateStats msJan2
        (runCalls [msJan1, msJan1, msJan1, msJan1, msJan1] emptyJan1)).stats.dailyCalls
        "2025-01-02" = 1 ∧
      SMap.getD (updateStats msJan2
        (runCalls [msJan1, msJan1, msJan1, msJan1, msJan1] emptyJan1)).stats.dailyCalls
        "2025-01-01" = 5 ∧
      (updateStats msJan2
        (runCalls [msJan1, msJan1, msJan1, msJan1, msJan1] emptyJan1)).stats.totalCalls
        = 6) := by
  refine ⟨fun s mss h => runCalls_totalCalls mss s h, ?_, by decide⟩
  intro ms t
  refine ⟨?_, ?_, ?_, ?_, ?_⟩ <;>
 simp [updateStats, SMap.getD_set_self]

/-- Witness for the universally quantified part of C1: one call at
2025-01-01 noon on the matching empty state. -/
theorem C1_recordCall_counting_witness :
    (∀ ms ∈ [msJan1], samePeriod ms emptyJan1) ∧
    (runCalls [msJan1] emptyJan1).totalCalls
      = emptyJan1.totalCalls + ([msJan1] : List Int).length :=
  ⟨by decide, C1_recordCall_counting.1 emptyJan1 [msJan1] (by decide)⟩

/-- C4 counterexample: for the instant 2024-12-30 12:00 (UTC+8), a Monday
in ISO week 2025-W01, the source's `getWeekKey()` pairs the ISO week
number with the calendar year and returns `"2024-W01"`, not the ISO-8601
week key `"2025-W01"` of the adjacent ISO year that the claim requires. -/
theorem C4_counterexample_week_year :
    getWeekKeyMs msDec30 = "2024-W01" ∧
    isoWeekKeyMs msDec30 = "2025-W01" ∧
    getWeekKeyMs msDec30 ≠ isoWeekKeyMs msDec30 := by
  decide

/-- C4 (amended): all keys are derived from the instant shifted by a fixed
8 hours; the day and month keys are the UTC+8 civil date's; the week key
pairs the ISO-8601 Thursday-anchored, Monday-started week *number* with
the *calendar* year of the UTC+8 date — not with the ISO week-based
year — so keys near January 1 can disagree with ISO-8601. -/
theorem C4_amended_key_derivation : ∀ ms : Int,
    getBeijingDateString ms
        = dayKeyOfDate (civilFromDays ((ms + bjShiftMs).fdiv 86400000)) ∧
    getMonthKeyMs ms = toString (bjDate ms).year ++ "-" ++ pad2 (bjDate ms).month ∧
    getWeekKeyMs ms = toString (bjDate ms).year ++ "-W" ++ pad2 (isoWeekNumber (bjDate ms)) := by
  intro ms
  refine ⟨rfl, rfl, ?_⟩
  rw [getWeekKeyMs, getWeekKeyOf, getWeekNumber_eq_isoWeekNumber]

/-- C5: a corrupt (malformed-JSON) stats file is non-fatal: startup falls
back to the module-level initial `CounterState` and immediately persists
the fresh state — with `totalCalls = 0` and every bucket count zero —
overwriting the corrupt file before any `recordCall()` is processed.
(The save is unconditional because the initial `lastWeeklyReset` is a
`"YYYY-MM-DD"` day string that can never equal `getWeekKey()`'s
`"YYYY-Www"` key, so the startup rollover check always fires.) -/
theorem C5_load_failure_persists_fresh : ∀ msStart msNow : Int,
    loadStatsStartup msStart msNow .corrupt
        = checkAndResetStats msNow (initialApiStats msStart) ∧
    (loadStatsStartup msStart msNow .corrupt).saved = true ∧
    (loadStatsStartup msStart msNow .corrupt).resetHappened = true ∧
    (loadStatsStartup msStart msNow .corrupt).stats.totalCalls = 0 ∧
    (∀ k, SMap.getD (loadStatsStartup msStart msNow .corrupt).stats.dailyCalls k = 0) ∧
    (∀ k, SMap.getD (loadStatsStartup msStart msNow .corrupt).stats.hourlyCalls k = 0) ∧
    (∀ k, SMap.getD (loadStatsStartup msStart msNow .corrupt).stats.weeklyCalls k = 0) ∧
    (∀ k, SMap.getD (loadStatsStartup msStart msNow .corrupt).stats.monthlyCalls k = 0) := by
  intro msStart msNow
  have hne : getWeekKeyMs msNow ≠ (initialApiStats msStart).lastWeeklyReset :=
    weekKey_ne_dayKey msNow _
  obtain ⟨hsaved, hreset⟩ := checkAndReset_fires_of_week_ne msNow _ hne
  have hz := checkAndReset_zeroVals msNow (initialApiStats msStart)
    (by intro kv h; simp [initialApiStats] at h)
    (by intro kv h; simp [initialApiStats] at h)
    (by intro kv h; simp [initialApiStats] at h)
    (by intro kv h; simp [initialApiStats] at h)
  refine ⟨rfl, hsaved, hreset, checkAndReset_totalCalls msNow _, ?_, ?_, ?_, ?_⟩
  · exact fun k => zeroVals_getD _ k hz.1
  · exact fun k => zeroVals_getD _ k hz.2.1
  · exact fun k => zeroVals_getD _ k hz.2.2.1
  · exact fun k => zeroVals_getD _ k hz.2.2.2

/-- C6: the migration merge takes `max` for the scalar and the pointwise
`max` per key for every counter map, keeping keys present on either side;
it is commutative and idempotent up to counter equality, never decreases
any counter, and against an empty database snapshot it reproduces the
file snapshot's counters. -/
theorem C6_migration_merge : ∀ A B : ApiStats,
    (mergeStats A B).totalCalls = max A.totalCalls B.totalCalls ∧
    CounterEquiv (mergeStats A B) (mergeStats B A) ∧
    CounterEquiv (mergeStats (mergeStats A B) B) (mergeStats A B) ∧
    (A.totalCalls ≤ (mergeStats A B).totalCalls ∧
      B.totalCalls ≤ (mergeStats A B).totalCalls) ∧
    (∀ k, SMap.getD A.dailyCalls k ≤ SMap.getD (mergeStats A B).dailyCalls k ∧
      SMap.getD B.dailyCalls k ≤ SMap.getD (mergeStats A B).dailyCalls k ∧
      SMap.getD A.hourlyCalls k ≤ SMap.getD (mergeStats A B).hourlyCalls k ∧
      SMap.getD B.hourlyCalls k ≤ SMap.getD (mergeStats A B).hourlyCalls k ∧
      SMap.getD A.weeklyCalls k ≤ SMap.getD (mergeStats A B).weeklyCalls k ∧
      SMap.getD B.weeklyCalls k ≤ SMap.getD (mergeStats A B).weeklyCalls k ∧
      SMap.getD A.monthlyCalls k ≤ SMap.getD (mergeStats A B).monthlyCalls k ∧
      SMap.getD B.monthlyCalls k ≤ SMap.getD (mergeStats A B).monthlyCalls k) ∧
    (∀ k, SMap.find (mergeStats A B).dailyCalls k = none ↔
      (SMap.find A.dailyCalls k = none ∧ SMap.find B.dailyCalls k = none)) ∧
    CounterEquiv (mergeStats (zeroCounters A) B) B := by
  intro A B
  refine ⟨rfl, ?_, ?_, ?_, ?_, ?_, ?_⟩
  · exact ⟨Nat.max_comm _ _, mergeMap_comm _ _, mergeMap_comm _ _,
      mergeMap_comm _ _, mergeMap_comm _ _⟩
  · refine ⟨?_, mergeMap_idem _ _, mergeMap_idem _ _, mergeMap_idem _ _,
      mergeMap_idem _ _⟩
    show max (max A.totalCalls B.totalCalls) B.totalCalls = max A.totalCalls B.totalCalls
    omega
  · constructor
    · show A.totalCalls ≤ max A.totalCalls B.totalCalls
      omega
    · show B.totalCalls ≤ max A.totalCalls B.totalCalls
      omega
  · intro k
    exact ⟨mergeMap_getD_left _ _ _, mergeMap_getD_right _ _ _,
      mergeMap_getD_left _ _ _, mergeMap_getD_right _ _ _,
      mergeMap_getD_left _ _ _, mergeMap_getD_right _ _ _,
      mergeMap_getD_left _ _ _, mergeMap_getD_right _ _ _⟩
  · intro k
    exact mergeMap_none_iff _ _ _
  · exact ⟨by show max 0 B.totalCalls = B.totalCalls; omega,
      mergeMap_empty_db _, mergeMap_empty_db _, mergeMap_empty_db _,
      mergeMap_empty_db _⟩

/-- C9: `reset-today` creates a backup and then zeroes only the current
day bucket and advances the day watermark, leaving `totalCalls`, the
hourly/weekly/monthly maps, the other watermarks and every other daily
entry unchanged; `reset-week` and `reset-month` likewise zero only their
own current bucket and watermark, without an explicit backup; and
`reset-all` (preceded by a backup) replaces the whole state with a fresh
zeroed one, `totalCalls` included. -/
theorem C9_reset_scope_frames : ∀ (ms : Int) (s : ApiStats),
    ((resetToday ms s).preBackups = 1 ∧
      (resetToday ms s).stats.totalCalls = s.totalCalls ∧
      (resetToday ms s).stats.hourlyCalls = s.hourlyCalls ∧
      (resetToday ms s).stats.weeklyCalls = s.weeklyCalls ∧
      (resetToday ms s).stats.monthlyCalls = s.monthlyCalls ∧
      (resetToday ms s).stats.lastWeeklyReset = s.lastWeeklyReset ∧
      (resetToday ms s).stats.lastMonthlyReset = s.lastMonthlyReset ∧
      (resetToday ms s).stats.lastResetDate = getBeijingDateString ms ∧
      SMap.find (resetToday ms s).stats.dailyCalls (getBeijingDateString ms)
          = some 0 ∧
      (∀ k, k ≠ getBeijingDateString ms →
        SMap.find (resetToday ms s).stats.dailyCalls k = SMap.find s.dailyCalls k)) ∧
    ((resetWeek ms s).preBackups = 0 ∧
      (resetWeek ms s).stats.totalCalls = s.totalCalls ∧
      (resetWeek ms s).stats.dailyCalls = s.dailyCalls ∧
      (resetWeek ms s).stats.hourlyCalls = s.hourlyCalls ∧
      (resetWeek ms s).stats.monthlyCalls = s.monthlyCalls ∧
      (resetWeek ms s).stats.lastResetDate = s.lastResetDate ∧
      (resetWeek ms s).stats.lastMonthlyReset = s.lastMonthlyReset ∧
      (resetWeek ms s).stats.lastWeeklyReset = getWeekKeyMs ms ∧
      SMap.find (resetWeek ms s).stats.weeklyCalls (getWeekKeyMs ms) = some 0 ∧
      (∀ k, k ≠ getWeekKeyMs ms →
        SMap.find (resetWeek ms s).stats.weeklyCalls k = SMap.find s.weeklyCalls k)) ∧
    ((resetMonth ms s).preBackups = 0 ∧
      (resetMonth ms s).stats.totalCalls = s.totalCalls ∧
      (resetMonth ms s).stats.dailyCalls = s.dailyCalls ∧
      (resetMonth ms s).stats.hourlyCalls = s.hourlyCalls ∧
      (resetMonth ms s).stats.weeklyCalls = s.weeklyCalls ∧
      (resetMonth ms s).stats.lastResetDate = s.lastResetDate ∧
      (resetMonth ms s).stats.lastWeeklyReset = s.lastWeeklyReset ∧
      (resetMonth ms s).stats.lastMonthlyReset = getMonthKeyMs ms ∧
      SMap.find (resetMonth ms s).stats.monthlyCalls (getMonthKeyMs ms) = some 0 ∧
      (∀ k, k ≠ getMonthKeyMs ms →
        SMap.find (resetMonth ms s).stats.monthlyCalls k = SMap.find s.monthlyCalls k)) ∧
    ((resetAll ms s).preBackups = 1 ∧
      (resetAll ms s).stats = freshStats ms ∧
      (freshStats ms).totalCalls = 0 ∧
      (freshStats ms).dailyCalls = [] ∧
      (freshStats ms).hourlyCalls = [] ∧
      (freshStats ms).weeklyCalls = [] ∧
      (freshStats ms).monthlyCalls = []) := by
  intro ms s
  refine ⟨⟨rfl, rfl, rfl, rfl, rfl, rfl, rfl, rfl, SMap.find_set_self _ _ _, ?_⟩,
    ⟨rfl, rfl, rfl, rfl, rfl, rfl, rfl, rfl, SMap.find_set_self _ _ _, ?_⟩,
    ⟨rfl, rfl, rfl, rfl, rfl, rfl, rfl, rfl, SMap.find_set_self _ _ _, ?_⟩,
    rfl, rfl, rfl, rfl, rfl, rfl, rfl⟩ <;>
 exact fun k hk => SMap.find_set_ne _ _ _ _ (fun h => hk h.symm)

/-- Witness for C9: the frame conditions at a concrete state, including
an untouched foreign daily entry. -/
theorem C9_reset_scope_frames_witness :
    (resetToday msFeb15 staleState).preBackups = 1 ∧
    (resetWeek msFeb15 staleState).preBackups = 0 ∧
    SMap.find (resetToday msFeb15 staleState).stats.dailyCalls "2024-10-01"
      = SMap.find staleState.dailyCalls "2024-10-01" :=
  ⟨(C9_reset_scope_frames msFeb15 staleState).1.1,
    (C9_reset_scope_frames msFeb15 staleState).2.1.1,
    (C9_reset_scope_frames msFeb15 staleState).1.2.2.2.2.2.2.2.2.2
      "2024-10-01" (by decide)⟩
